import Mathlib

/-!
Verification development for the lleaves LLVM-IR code generator
(`lleaves/compiler/codegen/codegen.py`, `lleaves/compiler/ast/nodes.py`).

The source compiles a LightGBM-style forest into an LLVM module:
one function per tree plus a row-looping `forest_root` dispatcher.
This file gives a shallow embedding of that code generator and of the
semantics of the code it emits, and proves / refutes the frozen claims
about it.

Modelling conventions:
- f64 values are modelled by `FP`: NaN, signed infinities, or a finite
  rational together with a negative-zero marker (the marker only matters
  at value 0).  IEEE comparisons on non-NaN, non-infinite values agree
  with the rational order, and -0.0 compares equal to +0.0.
- i32 values are modelled as `Nat` in their unsigned interpretation;
  the `fptosi` lowering of NaN to INT_MIN (documented in the source as
  "NaNs become negative max_val") is the unsigned value 2^31.
- The condition emitted for a numerical decision node is modelled as a
  small expression AST (`CondExpr`) over typed operands, so that both the
  structure of the emitted IR (which fcmp, which constants, their LLVM
  types) and its evaluation semantics are available.
- Loop indices of `forest_root` are idealised as `Int` with the signed
  comparison of the source; i32 wraparound is a caller obligation per
  the source contract.
-/

/-- Model of an IEEE-754 double value: NaN, an infinity
(`inf true` is negative infinity), or a finite rational with a flag
marking negative zero (meaningful only when the rational is 0). -/
inductive FP where
  | NaN : FP
  | inf : Bool → FP
  | fin : ℚ → Bool → FP
deriving DecidableEq

/-- The positive-zero double. -/
def fpZero : FP := FP.fin 0 false

/-- The negative-zero double. -/
def fpNegZero : FP := FP.fin 0 true

def FP.isNaN : FP → Bool
  | .NaN => true
  | _ => false

/-- Ordered IEEE `<=`: false whenever either argument is NaN;
-0.0 and +0.0 are numerically equal. -/
def FP.oLe : FP → FP → Bool
  | .NaN, _ => false
  | _, .NaN => false
  | .inf true, _ => true
  | _, .inf false => true
  | .inf false, _ => false
  | _, .inf true => false
  | .fin x _, .fin y _ => decide (x ≤ y)

/-- Ordered IEEE `==`: false whenever either argument is NaN. -/
def FP.oEq : FP → FP → Bool
  | .NaN, _ => false
  | _, .NaN => false
  | .inf a, .inf b => a == b
  | .inf _, .fin _ _ => false
  | .fin _ _, .inf _ => false
  | .fin x _, .fin y _ => decide (x = y)

/-- Ordered IEEE `<`. -/
def FP.oLt (a b : FP) : Bool := FP.oLe a b && !(FP.oEq a b)

/-- Ordered IEEE `>`. -/
def FP.oGt (a b : FP) : Bool := FP.oLt b a

/-- Unordered IEEE `<=`: true whenever either argument is NaN. -/
def FP.uLe (a b : FP) : Bool := a.isNaN || b.isNaN || FP.oLe a b

/-- Unordered IEEE `==`: true whenever either argument is NaN. -/
def FP.uEq (a b : FP) : Bool := a.isNaN || b.isNaN || FP.oEq a b

/-- Unordered IEEE `>`. -/
def FP.uGt (a b : FP) : Bool := a.isNaN || b.isNaN || FP.oGt a b

/-- Finite (neither NaN nor an infinity). -/
def FP.isFinite : FP → Bool
  | .fin _ _ => true
  | _ => false

/-- Numerically zero (either signed zero). -/
def FP.isZero : FP → Bool
  | .fin x _ => decide (x = 0)
  | _ => false

/-- Python truthiness of a float: `bool(x)` is `x != 0.0`, so both signed
zeros are falsy while NaN and the infinities are truthy. -/
def pyTruthy : FP → Bool
  | .NaN => true
  | .inf _ => true
  | .fin x _ => decide (x ≠ 0)

/-- LightGBM missing-value regime, mirroring `MissingType` of
`lleaves/compiler/utils.py`. -/
inductive MissingType where
  | MNone : MissingType
  | MZero : MissingType
  | MNaN : MissingType
deriving DecidableEq

/-- The decision-type flags of a node. The source packs these into one
integer decoded by `DecisionType` (parser boundary); codegen only reads
the three fields, modelled here as an explicit record. -/
structure DecisionType where
  is_categorical : Bool
  is_default_left : Bool
  missing_type : MissingType
deriving DecidableEq

/-- LLVM scalar float types relevant to the emitted compares. -/
inductive LTy where
  | double : LTy
  | float : LTy
deriving DecidableEq

/-- Comparison predicate of an emitted fcmp. -/
inductive CmpOp where
  | le : CmpOp
  | gt : CmpOp
  | eq : CmpOp
deriving DecidableEq

/-- Operand of an emitted comparison: a tree-function argument (an f64
parameter for numerical features), a DOUBLE constant built by `dconst`,
or a FLOAT constant built by `fconst`. -/
inductive Operand where
  | arg : ℕ → Operand
  | dconst : FP → Operand
  | fconst : FP → Operand
deriving DecidableEq

/-- LLVM type of an operand: `dconst` builds DOUBLE constants, `fconst`
builds FLOAT constants; numerical tree arguments are DOUBLE. -/
def Operand.lty : Operand → LTy
  | .arg _ => .double
  | .dconst _ => .double
  | .fconst _ => .float

/-- Value of an operand under an argument environment. A FLOAT constant
still denotes its numeric value (0.0 is exactly representable); the type
error it causes in the IR is tracked by `Operand.lty`, not here. -/
def Operand.value (env : ℕ → FP) : Operand → FP
  | .arg i => env i
  | .dconst x => x
  | .fconst x => x

/-- The boolean condition emitted for a numerical decision node:
ordered / unordered fcmps combined with `or_` and `not_`. -/
inductive CondExpr where
  | fcmpU : CmpOp → Operand → Operand → CondExpr
  | fcmpO : CmpOp → Operand → Operand → CondExpr
  | orE : CondExpr → CondExpr → CondExpr
  | notE : CondExpr → CondExpr
deriving DecidableEq

/-- Ordered fcmp semantics. -/
def cmpOrd (op : CmpOp) (a b : FP) : Bool :=
  match op with
  | .le => FP.oLe a b
  | .gt => FP.oGt a b
  | .eq => FP.oEq a b

/-- Unordered fcmp semantics (true whenever either operand is NaN). -/
def cmpUnord (op : CmpOp) (a b : FP) : Bool :=
  match op with
  | .le => FP.uLe a b
  | .gt => FP.uGt a b
  | .eq => FP.uEq a b

/-- Evaluation of an emitted condition under an argument environment. -/
def CondExpr.eval (env : ℕ → FP) : CondExpr → Bool
  | .fcmpU op a b => cmpUnord op (a.value env) (b.value env)
  | .fcmpO op a b => cmpOrd op (a.value env) (b.value env)
  | .orE a b => CondExpr.eval env a || CondExpr.eval env b
  | .notE a => !(CondExpr.eval env a)

/-- All fcmp operands of the condition are DOUBLE-typed (a numerical
node compares f64 values, so a well-typed emitted compare must have
DOUBLE on both sides). -/
def CondExpr.wellTypedF64 : CondExpr → Bool
  | .fcmpU _ a b => (a.lty == LTy.double) && (b.lty == LTy.double)
  | .fcmpO _ a b => (a.lty == LTy.double) && (b.lty == LTy.double)
  | .orE a b => a.wellTypedF64 && b.wellTypedF64
  | .notE a => a.wellTypedF64

/-- Shallow embedding of `_populate_numerical_node_block`
(codegen.py lines 280-319): builds the branch condition (true = go left)
for a numerical decision node with split feature `sf`, threshold `thr`
and decision-type flags `dt`. Note the zero constant of the explicit
missing-value check is built with `fconst` (a FLOAT constant), exactly
as in the source. -/
def populateNumericalNodeBlock (sf : ℕ) (thr : FP) (dt : DecisionType) : CondExpr :=
  let val := Operand.arg sf
  let thresh := Operand.dconst thr
  let missing_t := dt.missing_type
  let default_left :=
    if dt.missing_type = MissingType.MNone then FP.oLe fpZero thr
    else dt.is_default_left
  if default_left then
    if missing_t ≠ MissingType.MZero ∨
        (missing_t = MissingType.MZero ∧ FP.oLe fpZero thr = true) then
      CondExpr.fcmpU .le val thresh
    else
      CondExpr.orE (CondExpr.fcmpU .eq val (Operand.fconst fpZero))
        (CondExpr.fcmpU .le val thresh)
  else
    if missing_t ≠ MissingType.MZero ∨
        (missing_t = MissingType.MZero ∧ FP.oLt thr fpZero = true) then
      CondExpr.fcmpO .le val thresh
    else
      CondExpr.notE (CondExpr.orE (CondExpr.fcmpU .eq val (Operand.fconst fpZero))
        (CondExpr.fcmpO .gt val thresh))

/-- The spec's case table for the numerical branch condition, written
from the spec's words as a boolean predicate on the input value `v`:
first the MNone override of default-left, then per effective
default-left the unordered / ordered compare or the explicit
missing-zero form. -/
def specNumericalGoesLeft (mt : MissingType) (dl : Bool) (t v : FP) : Bool :=
  let dlAdj := if mt = MissingType.MNone then FP.oLe fpZero t else dl
  if dlAdj then
    if mt ≠ MissingType.MZero ∨ (mt = MissingType.MZero ∧ FP.oLe fpZero t = true) then
      FP.uLe v t
    else
      FP.uEq v fpZero || FP.uLe v t
  else
    if mt ≠ MissingType.MZero ∨ (mt = MissingType.MZero ∧ FP.oLt t fpZero = true) then
      FP.oLe v t
    else
      !(FP.uEq v fpZero || FP.oGt v t)

/-- Effective default-left after the MNone override. -/
def effDefaultLeft (mt : MissingType) (dl : Bool) (t : FP) : Bool :=
  if mt = MissingType.MNone then FP.oLe fpZero t else dl

/-- Guard of the unordered-compare case when effective default-left is true. -/
def guardLeft (mt : MissingType) (t : FP) : Bool :=
  (mt != MissingType.MZero) || ((mt == MissingType.MZero) && FP.oLe fpZero t)

/-- Guard of the ordered-compare case when effective default-left is false. -/
def guardRight (mt : MissingType) (t : FP) : Bool :=
  (mt != MissingType.MZero) || ((mt == MissingType.MZero) && FP.oLt t fpZero)

/-- C1: for every numerical decision node, the emitted branch condition
evaluates exactly as the spec's case table prescribes (MNone overrides
default-left to 0.0 <= t; then unordered <=, explicit-missing OR form,
ordered <=, or negated OR form according to the table), and the four
table cases are mutually exclusive and exhaustive. -/
theorem numerical_condition_follows_spec_table
    (dt : DecisionType) (sf : ℕ) (thr : FP) (env : ℕ → FP) :
    CondExpr.eval env (populateNumericalNodeBlock sf thr dt) =
      specNumericalGoesLeft dt.missing_type dt.is_default_left thr (env sf)
    ∧ ((effDefaultLeft dt.missing_type dt.is_default_left thr
          && guardLeft dt.missing_type thr).toNat
        + (effDefaultLeft dt.missing_type dt.is_default_left thr
          && !guardLeft dt.missing_type thr).toNat
        + (!effDefaultLeft dt.missing_type dt.is_default_left thr
          && guardRight dt.missing_type thr).toNat
        + (!effDefaultLeft dt.missing_type dt.is_default_left thr
          && !guardRight dt.missing_type thr).toNat) = 1 := by
  refine ⟨?_, ?_⟩
  · simp only [populateNumericalNodeBlock, specNumericalGoesLeft,
      apply_ite (CondExpr.eval env)]
    rfl
  · cases h1 : effDefaultLeft dt.missing_type dt.is_default_left thr <;>
      cases h2 : guardLeft dt.missing_type thr <;>
        cases h3 : guardRight dt.missing_type thr <;> rfl

/-- A concrete MZero node taking the explicit missing-value path:
missing_type = MZero, default_left = true, threshold = -1.0. -/
def mzeroLeftDT : DecisionType :=
  { is_categorical := false, is_default_left := true, missing_type := MissingType.MZero }

/-- Threshold -1.0 (negative, so the MZero default-left path emits the
explicit (v == 0.0) OR (v <= t) form). -/
def c2Threshold : FP := FP.fin (-1) false

/-- The condition the source emits for that node. -/
def c2Cond : CondExpr := populateNumericalNodeBlock 0 c2Threshold mzeroLeftDT

/-- C2, evaluated at the failing input: the emitted predicate for the
explicit-missing MZero case is (v == 0.0) OR (v <= t) with unordered
compares, and both signed zeros route as missing (left, following the
default-left direction); but the zero comparison is NOT a well-typed
f64 compare: the source builds the zero constant with `fconst`, i.e. a
FLOAT (f32) constant, compared against the f64 argument. -/
theorem mzero_zero_compare_is_float_typed :
    c2Cond = CondExpr.orE
        (CondExpr.fcmpU .eq (Operand.arg 0) (Operand.fconst fpZero))
        (CondExpr.fcmpU .le (Operand.arg 0) (Operand.dconst c2Threshold))
    ∧ CondExpr.wellTypedF64 c2Cond = false
    ∧ (Operand.fconst fpZero).lty = LTy.float
    ∧ CondExpr.eval (fun _ => fpZero) c2Cond = true
    ∧ CondExpr.eval (fun _ => fpNegZero) c2Cond = true := by
  refine ⟨by decide, by decide, rfl, by decide, by decide⟩

/-- Shallow embedding of the emitted categorical decision
(`_populate_categorical_node_block`, codegen.py lines 248-277), as the
branch outcome it computes over the already-cast i32 category `v`
(unsigned interpretation).  The node block does an unsigned range check
against 32*|B| and fast-paths to the right child when out of range; the
bitset-compare block picks word v/32 (udiv), shifts by v%32 (urem) and
truncates to i1. -/
def categoricalGoesLeft (B : List ℕ) (v : ℕ) : Bool :=
  if v < 32 * B.length then
    decide ((B.getD (v / 32) 0 >>> (v % 32)) % 2 = 1)
  else false

/-- The `fptosi`-to-i32 cast performed by `forest_root` on categorical
features, in the unsigned interpretation of the resulting i32.  NaN
lowers to INT_MIN = 0x80000000 (the source comment: "NaNs become
negative max_val"); finite values truncate toward zero, with the
documented INT_MIN result for values outside the i32 range. -/
def FP.fptosi32 : FP → ℕ
  | .NaN => 2 ^ 31
  | .inf _ => 2 ^ 31
  | .fin x _ =>
    let n : ℤ := if 0 ≤ x then Int.floor x else Int.ceil x
    if -(2 ^ 31) ≤ n ∧ n < 2 ^ 31 then (n % 2 ^ 32).toNat else 2 ^ 31

/-- C3: in-range categories go left iff their bit is set in the packed
bitset (word v/32, bit v%32); out-of-range categories go right without
the bitset mattering; and a NaN feature, cast by forest_root's fptosi
to INT_MIN (unsigned 2^31), goes right whenever the bitset covers at
most 2^31 categories, because the range check is unsigned. -/
theorem categorical_bitset_nan_fast_path (B : List ℕ) (v : ℕ) :
    (v < 32 * B.length →
      (categoricalGoesLeft B v = true ↔ (B.getD (v / 32) 0 >>> (v % 32)) % 2 = 1))
    ∧ (32 * B.length ≤ v → categoricalGoesLeft B v = false)
    ∧ (32 * B.length ≤ 2 ^ 31 → categoricalGoesLeft B (FP.fptosi32 FP.NaN) = false) := by
  refine ⟨?_, ?_, ?_⟩
  · intro h
    simp only [categoricalGoesLeft, if_pos h, decide_eq_true_eq]
  · intro h
    simp only [categoricalGoesLeft]
    rw [if_neg]
    omega
  · intro h
    simp only [FP.fptosi32, categoricalGoesLeft]
    rw [if_neg]
    omega

/-- Witness for the categorical theorem at the spec's seed case:
bitset [0b1010] (bits 1 and 3 set), category 3 in range and set,
category 40 out of range, NaN out of range. -/
theorem categorical_bitset_nan_fast_path_witness :
    (3 < 32 * [10].length ∧ categoricalGoesLeft [10] 3 = true)
    ∧ categoricalGoesLeft [10] 40 = false
    ∧ categoricalGoesLeft [10] (FP.fptosi32 FP.NaN) = false := by
  refine ⟨⟨by decide, ?_⟩, ?_, ?_⟩
  · exact ((categorical_bitset_nan_fast_path [10] 3).1 (by decide)).mpr (by decide)
  · exact (categorical_bitset_nan_fast_path [10] 40).2.1 (by decide)
  · exact (categorical_bitset_nan_fast_path [10] 0).2.2 (by decide)

/-- An argument passed to a tree function by `forest_root`: an f64
value for a numerical feature, or an already-cast i32 category. -/
inductive ArgVal where
  | d : FP → ArgVal
  | cat : ℕ → ArgVal
deriving DecidableEq

/-- Read an argument as f64 (numerical features). -/
def ArgVal.asF : ArgVal → FP
  | .d x => x
  | .cat _ => FP.NaN

/-- Read an argument as i32 category (categorical features). -/
def ArgVal.asCat : ArgVal → ℕ
  | .cat v => v
  | .d _ => 0

/-- Argument environment of a tree function call. -/
def envOf (args : List ArgVal) : ℕ → FP :=
  fun i => (args.getD i (ArgVal.d FP.NaN)).asF

/-- Category value of the split feature. -/
def catArgOf (args : List ArgVal) (sf : ℕ) : ℕ :=
  (args.getD sf (ArgVal.d FP.NaN)).asCat

/-- The AST of a tree, mirroring `DecisionNode` / `LeafNode` of
`lleaves/compiler/ast/nodes.py` after parsing: a decision node carries
its decision-type flags, split feature, threshold, optional categorical
bitset and the two children. -/
inductive TNode where
  | leaf : ℚ → TNode
  | decision : DecisionType → ℕ → FP → Option (List ℕ) → TNode → TNode → TNode
deriving DecidableEq

/-- Mirror of `Node.is_leaf` of nodes.py. -/
def TNode.isLeaf : TNode → Bool
  | .leaf _ => true
  | _ => false

/-- Value of a leaf node (0 for decision nodes; only used under
`isLeaf`). -/
def TNode.leafValue : TNode → ℚ
  | .leaf v => v
  | _ => 0

/-- The IR emitted for a (sub)tree, at basic-block granularity:
- `retLeaf v`: a leaf block ending in `ret v`;
- `numBranch c l r`: a numerical node block computing `c` and
  conditionally branching to the child blocks;
- `numFused c lv rv`: a fused double-leaf numerical node: no child
  blocks, a `select` of the two leaf constants followed by `ret`;
- `catBranch sf B l r`: a categorical node block (unsigned range check
  fast-pathing right) plus its bitset-compare block, branching to the
  child blocks;
- `catFused sf B lv rv`: a fused double-leaf categorical node: the
  right-child leaf block is still allocated (the range-check fast-path
  branches to it, and it returns `rv`), and the bitset-compare block
  ends in `select` of the two leaf constants plus `ret`. -/
inductive NodeIR where
  | retLeaf : ℚ → NodeIR
  | numBranch : CondExpr → NodeIR → NodeIR → NodeIR
  | numFused : CondExpr → ℚ → ℚ → NodeIR
  | catBranch : ℕ → List ℕ → NodeIR → NodeIR → NodeIR
  | catFused : ℕ → List ℕ → ℚ → ℚ → NodeIR
deriving DecidableEq

/-- Shallow embedding of `_gen_decision_node` / `gen_node`
(codegen.py lines 79-132): a node whose children are both leaves is
fused (no child blocks; only a categorical node still allocates the
right-child block for the range-check fast-path); otherwise both child
blocks are allocated and populated recursively. -/
def genTreeNode : TNode → NodeIR
  | .leaf v => .retLeaf v
  | .decision dt sf thr ct l r =>
    if l.isLeaf && r.isLeaf then
      if dt.is_categorical then .catFused sf (ct.getD []) l.leafValue r.leafValue
      else .numFused (populateNumericalNodeBlock sf thr dt) l.leafValue r.leafValue
    else
      if dt.is_categorical then
        .catBranch sf (ct.getD []) (genTreeNode l) (genTreeNode r)
      else
        .numBranch (populateNumericalNodeBlock sf thr dt) (genTreeNode l) (genTreeNode r)

/-- LLVM `select` on f64 constants. -/
def selectD (c : Bool) (a b : ℚ) : Bool × ℚ × ℚ → ℚ := fun _ => if c then a else b

/-- Semantics of the emitted IR of a tree: the f64 the tree function
returns for the given argument list. -/
def evalNodeIR (args : List ArgVal) : NodeIR → ℚ
  | .retLeaf v => v
  | .numBranch c l r =>
    if CondExpr.eval (envOf args) c then evalNodeIR args l else evalNodeIR args r
  | .numFused c lv rv => if CondExpr.eval (envOf args) c then lv else rv
  | .catBranch sf B l r =>
    if categoricalGoesLeft B (catArgOf args sf) then evalNodeIR args l
    else evalNodeIR args r
  | .catFused sf B lv rv =>
    if categoricalGoesLeft B (catArgOf args sf) then lv else rv

/-- Branch outcome of a decision node (true = left child). -/
def nodeGoesLeft (args : List ArgVal) (dt : DecisionType) (sf : ℕ) (thr : FP)
    (ct : Option (List ℕ)) : Bool :=
  if dt.is_categorical then categoricalGoesLeft (ct.getD []) (catArgOf args sf)
  else CondExpr.eval (envOf args) (populateNumericalNodeBlock sf thr dt)

/-- The un-fused branching reference semantics of a tree: at every
decision node, conditionally branch to a child block; at every leaf,
return its value. -/
def evalTNodeBranch (args : List ArgVal) : TNode → ℚ
  | .leaf v => v
  | .decision dt sf thr ct l r =>
    if nodeGoesLeft args dt sf thr ct then evalTNodeBranch args l
    else evalTNodeBranch args r

/-- C5: for every node the emitted (fusion-optimised) IR computes the
same value as the un-fused branching form on every input; and a
double-leaf decision node is emitted fused: no child blocks and an
inline select of the two leaf constants (`numFused`), except that a
categorical double-leaf still produces the right-child block
(`catFused`). -/
theorem fused_select_equals_branching :
    (∀ (n : TNode) (args : List ArgVal),
      evalNodeIR args (genTreeNode n) = evalTNodeBranch args n)
    ∧ (∀ (dt : DecisionType) (sf : ℕ) (thr : FP) (ct : Option (List ℕ)) (lv rv : ℚ),
      genTreeNode (TNode.decision dt sf thr ct (TNode.leaf lv) (TNode.leaf rv)) =
        if dt.is_categorical then NodeIR.catFused sf (ct.getD []) lv rv
        else NodeIR.numFused (populateNumericalNodeBlock sf thr dt) lv rv) := by
  refine ⟨?_, ?_⟩
  · intro n
    induction n with
    | leaf v => intro args; rfl
    | decision dt sf thr ct l r ihl ihr =>
      intro args
      rw [genTreeNode]
      by_cases hf : (l.isLeaf && r.isLeaf) = true
      · rw [if_pos hf]
        rw [Bool.and_eq_true] at hf
        cases l with
        | decision d1 a1 a2 a3 a4 a5 => simp [TNode.isLeaf] at hf
        | leaf lv =>
          cases r with
          | decision d1 a1 a2 a3 a4 a5 => simp [TNode.isLeaf] at hf
          | leaf rv =>
            by_cases hc : dt.is_categorical = true <;>
              simp [hc, evalNodeIR, evalTNodeBranch, nodeGoesLeft, TNode.leafValue]
      · rw [if_neg hf]
        by_cases hc : dt.is_categorical = true <;>
          simp [hc, evalNodeIR, evalTNodeBranch, nodeGoesLeft, ihl, ihr]
  · intro dt sf thr ct lv rv
    simp only [genTreeNode, TNode.isLeaf, TNode.leafValue, Bool.and_self, if_true]

/-- The f64 expression emitted by `_populate_objective_func_block` over
the accumulator input `x`: constants, fmul/fadd/fdiv, and calls to the
declared intrinsics llvm.exp.f64, llvm.log.f64, llvm.copysign.f64. -/
inductive FExpr where
  | x : FExpr
  | const : ℚ → FExpr
  | fmul : FExpr → FExpr → FExpr
  | fadd : FExpr → FExpr → FExpr
  | fdiv : FExpr → FExpr → FExpr
  | callExp : FExpr → FExpr
  | callLog : FExpr → FExpr
  | callCopysign : FExpr → FExpr → FExpr
deriving DecidableEq

/-- copysign on rationals: magnitude of the first argument, sign of the
second (nonnegative second argument gives a nonnegative result). -/
def copysignQ (a b : ℚ) : ℚ := if b < 0 then -|a| else |a|

/-- Evaluation of an emitted objective expression at accumulator value
`v`, with the exp and log intrinsics supplied as function parameters
(their numerics are external to the code generator). -/
def FExpr.eval (expF logF : ℚ → ℚ) (v : ℚ) : FExpr → ℚ
  | .x => v
  | .const c => c
  | .fmul a b => FExpr.eval expF logF v a * FExpr.eval expF logF v b
  | .fadd a b => FExpr.eval expF logF v a + FExpr.eval expF logF v b
  | .fdiv a b => FExpr.eval expF logF v a / FExpr.eval expF logF v b
  | .callExp a => expF (FExpr.eval expF logF v a)
  | .callLog a => logF (FExpr.eval expF logF v a)
  | .callCopysign a b => copysignQ (FExpr.eval expF logF v a) (FExpr.eval expF logF v b)

/-- Numeric value of a digit list (most significant first). -/
def digitsVal (l : List Char) : ℕ :=
  l.foldl (fun acc c => 10 * acc + (c.toNat - 48)) 0

/-- Modelled from the spec: the objective parameter is "parsed from
objective_func_config after the first colon" by CPython float(), which
is outside this repository; modelled here as a plain decimal parser
(optional sign, integer digits, optional fraction). -/
def parseUnsignedDecimal (l : List Char) : Option ℚ :=
  match l.span Char.isDigit with
  | (intPart, rest) =>
    match rest with
    | [] => if intPart.isEmpty then none else some (digitsVal intPart : ℚ)
    | '.' :: frac =>
      if frac.all Char.isDigit && !(intPart.isEmpty && frac.isEmpty) then
        some ((digitsVal intPart : ℚ) + (digitsVal frac : ℚ) / (10 : ℚ) ^ frac.length)
      else none
    | _ => none

/-- Modelled from the spec: CPython float() over a decimal literal with
optional leading sign. -/
def pyFloatOfChars (l : List Char) : Option ℚ :=
  match l with
  | '-' :: rest => (parseUnsignedDecimal rest).map (fun q => -q)
  | '+' :: rest => parseUnsignedDecimal rest
  | _ => parseUnsignedDecimal l

/-- Model of `objective_config.split(":")[1]` followed by float(): the sigmoid
parameter of the binary objective, None when the config has no colon or
the segment does not parse. -/
def pyAlphaOf (config : String) : Option ℚ :=
  match (config.toList.splitOn ':').get? 1 with
  | none => none
  | some cs => pyFloatOfChars cs

/-- Python substring test `pat in s`. -/
def strContains (s pat : String) : Bool :=
  decide (pat.toList <:+: s.toList)

/-- The sigmoid expression 1 / (1 + exp(-alpha * x)) emitted by
`_populate_sigmoid`. -/
def sigmoidExpr (alpha : ℚ) : FExpr :=
  FExpr.fdiv (FExpr.const 1)
    (FExpr.fadd (FExpr.const 1) (FExpr.callExp (FExpr.fmul (FExpr.const (-alpha)) FExpr.x)))

/-- log(1 + exp(x)), the xentlambda lowering. -/
def xentlambdaExpr : FExpr :=
  FExpr.callLog (FExpr.fadd (FExpr.const 1) (FExpr.callExp FExpr.x))

/-- copysign(x*x, x), the sqrt-regression lowering. -/
def sqrtRegressionExpr : FExpr :=
  FExpr.callCopysign (FExpr.fmul FExpr.x FExpr.x) FExpr.x

/-- Error message of `_populate_sigmoid` for a non-positive parameter. -/
def sigmoidErrMsg : String := "Sigmoid parameter needs to be >0"

/-- Error message for an unknown objective (the source appends
ISSUE_ERROR_MSG pointing at the issue tracker). -/
def notImplMsg (objective : String) : String :=
  "Objective " ++ objective ++ " not yet implemented. Please open an issue."

/-- The objectives enumerated by `_populate_objective_func_block`. -/
def enumeratedObjectives : List String :=
  ["binary", "xentropy", "cross_entropy", "xentlambda", "cross_entropy_lambda",
   "poisson", "gamma", "tweedie",
   "regression", "regression_l1", "huber", "fair", "quantile", "mape",
   "lambdarank", "rank_xendcg", "custom"]

/-- Shallow embedding of `_populate_objective_func_block`
(codegen.py lines 194-245): maps the objective tag and config string to
the emitted post-transform expression, or to the error the source
raises (non-positive sigmoid parameter, unparsable binary config,
unknown objective). -/
def populateObjectiveFuncBlock (objective objective_config : String) :
    Except String FExpr :=
  let populateSigmoid : ℚ → Except String FExpr := fun alpha =>
    if alpha ≤ 0 then Except.error sigmoidErrMsg
    else Except.ok (sigmoidExpr alpha)
  if objective = "binary" then
    match pyAlphaOf objective_config with
    | none => Except.error "invalid sigmoid config"
    | some alpha => populateSigmoid alpha
  else if objective = "xentropy" ∨ objective = "cross_entropy" then
    populateSigmoid 1
  else if objective = "xentlambda" ∨ objective = "cross_entropy_lambda" then
    Except.ok xentlambdaExpr
  else if objective = "poisson" ∨ objective = "gamma" ∨ objective = "tweedie" then
    Except.ok (FExpr.callExp FExpr.x)
  else if objective ∈ (["regression", "regression_l1", "huber", "fair",
      "quantile", "mape"] : List String) then
    if objective_config ≠ "" ∧ strContains objective_config "sqrt" = true then
      Except.ok sqrtRegressionExpr
    else
      Except.ok FExpr.x
  else if objective ∈ (["lambdarank", "rank_xendcg", "custom"] : List String) then
    Except.ok FExpr.x
  else
    Except.error (notImplMsg objective)

/-- Whether codegen succeeded. -/
def exceptOk {α : Type} : Except String α → Bool
  | .ok _ => true
  | .error _ => false

theorem exceptOk_ok {α : Type} (x : α) : exceptOk (Except.ok x) = true := rfl

theorem exceptOk_error {α : Type} (e : String) :
    exceptOk (Except.error e : Except String α) = false := rfl

/-- A nonempty substring match forces a nonempty string. -/
theorem strContains_sqrt_ne_empty (s : String) (h : strContains s "sqrt" = true) :
    s ≠ "" := by
  intro he
  subst he
  exact absurd h (by decide)

/-- C6: the objective post-transform table. For each tag the emitted
expression is: binary, the sigmoid 1/(1+exp(-alpha*x)) with alpha parsed
from the config after the first colon; xentropy / cross_entropy, the
same sigmoid with alpha = 1; xentlambda / cross_entropy_lambda,
log(1+exp(x)); poisson / gamma / tweedie, exp(x); the regression family,
copysign(x*x, x) when the config contains "sqrt" and x otherwise;
lambdarank / rank_xendcg / custom, x unchanged. The final conjuncts pin
the evaluation semantics of the emitted expressions, including the
concrete x = -4 sqrt case yielding -16. -/
theorem objective_transform_table (config : String) (a : ℚ)
    (hparse : pyAlphaOf config = some a) (hpos : 0 < a) :
    populateObjectiveFuncBlock "binary" config = Except.ok (sigmoidExpr a)
    ∧ populateObjectiveFuncBlock "xentropy" config = Except.ok (sigmoidExpr 1)
    ∧ populateObjectiveFuncBlock "cross_entropy" config = Except.ok (sigmoidExpr 1)
    ∧ populateObjectiveFuncBlock "xentlambda" config = Except.ok xentlambdaExpr
    ∧ populateObjectiveFuncBlock "cross_entropy_lambda" config = Except.ok xentlambdaExpr
    ∧ (∀ obj ∈ (["poisson", "gamma", "tweedie"] : List String),
        populateObjectiveFuncBlock obj config = Except.ok (FExpr.callExp FExpr.x))
    ∧ (∀ obj ∈ (["regression", "regression_l1", "huber", "fair", "quantile",
          "mape"] : List String),
        populateObjectiveFuncBlock obj config =
          Except.ok (if strContains config "sqrt" = true then sqrtRegressionExpr
            else FExpr.x))
    ∧ (∀ obj ∈ (["lambdarank", "rank_xendcg", "custom"] : List String),
        populateObjectiveFuncBlock obj config = Except.ok FExpr.x)
    ∧ FExpr.eval (fun q => q) (fun q => q) (-4) sqrtRegressionExpr = -16
    ∧ (∀ (expF logF : ℚ → ℚ) (v : ℚ),
        FExpr.eval expF logF v (sigmoidExpr a) = 1 / (1 + expF (-a * v))
        ∧ FExpr.eval expF logF v xentlambdaExpr = logF (1 + expF v)
        ∧ FExpr.eval expF logF v (FExpr.callExp FExpr.x) = expF v
        ∧ FExpr.eval expF logF v sqrtRegressionExpr = copysignQ (v * v) v) := by
  have hsig : (if a ≤ 0 then Except.error sigmoidErrMsg
      else Except.ok (sigmoidExpr a)) = Except.ok (sigmoidExpr a) :=
    if_neg (not_le.mpr hpos)
  refine ⟨?_, ?_, ?_, ?_, ?_, ?_, ?_, ?_,
    by norm_num [FExpr.eval, sqrtRegressionExpr, copysignQ], ?_⟩
  · simp [populateObjectiveFuncBlock, hparse, hsig]
  · simp [populateObjectiveFuncBlock]
  · simp [populateObjectiveFuncBlock]
  · simp [populateObjectiveFuncBlock]
  · simp [populateObjectiveFuncBlock]
  · intro obj hobj
    fin_cases hobj <;> simp [populateObjectiveFuncBlock]
  · intro obj hobj
    by_cases hs : strContains config "sqrt" = true
    · have hne := strContains_sqrt_ne_empty config hs
      fin_cases hobj <;> simp [populateObjectiveFuncBlock, hs, hne]
    · fin_cases hobj <;> simp [populateObjectiveFuncBlock, hs]
  · intro obj hobj
    fin_cases hobj <;> simp [populateObjectiveFuncBlock]
  · intro expF logF v
    refine ⟨?_, rfl, rfl, rfl⟩
    simp [sigmoidExpr, FExpr.eval]

/-- Witness for the objective table at config "sqrt:2" (alpha 2,
contains "sqrt") and the concrete sqrt evaluation at -4. -/
theorem objective_transform_table_witness :
    populateObjectiveFuncBlock "binary" "sqrt:2" = Except.ok (sigmoidExpr 2)
    ∧ populateObjectiveFuncBlock "regression" "sqrt:2" = Except.ok sqrtRegressionExpr
    ∧ FExpr.eval (fun q => q) (fun q => q) (-4) sqrtRegressionExpr = -16 := by
  have h := objective_transform_table "sqrt:2" 2 (by decide) (by decide)
  refine ⟨h.1, ?_, h.2.2.2.2.2.2.2.2.1⟩
  have h2 := h.2.2.2.2.2.2.1 "regression" (by decide)
  simpa [show strContains "sqrt:2" "sqrt" = true from by decide] using h2

/-- C7: objective lowering errors exactly when the tag is binary with a
parsed sigmoid parameter <= 0, or the tag is outside the enumerated
set (in which case the error message says the objective is not
implemented); every other enumerated tag always lowers successfully,
and binary with a parsed parameter succeeds iff the parameter is
positive. -/
theorem objective_error_characterization (obj config : String) (a : ℚ) :
    (obj ∉ enumeratedObjectives →
      populateObjectiveFuncBlock obj config = Except.error (notImplMsg obj))
    ∧ (pyAlphaOf config = some a →
      exceptOk (populateObjectiveFuncBlock "binary" config) = !decide (a ≤ 0))
    ∧ (obj ∈ enumeratedObjectives → obj ≠ "binary" →
      exceptOk (populateObjectiveFuncBlock obj config) = true) := by
  refine ⟨?_, ?_, ?_⟩
  · intro h
    simp only [enumeratedObjectives, List.mem_cons, List.mem_singleton] at h
    push_neg at h
    obtain ⟨h1, h2, h3, h4, h5, h6, h7, h8, h9, h10, h11, h12, h13, h14, h15,
      h16, h17⟩ := h
    simp only [populateObjectiveFuncBlock, List.mem_cons]
    simp [h1, h2, h3, h4, h5, h6, h7, h8, h9, h10, h11, h12, h13, h14, h15,
      h16, h17]
  · intro hp
    by_cases ha : a ≤ 0 <;>
      simp [populateObjectiveFuncBlock, hp, ha, exceptOk, sigmoidErrMsg]
  · intro hmem hne
    have hs1 : (if (1 : ℚ) ≤ 0 then Except.error sigmoidErrMsg
        else Except.ok (sigmoidExpr 1)) = Except.ok (sigmoidExpr 1) :=
      if_neg (by norm_num)
    fin_cases hmem <;>
      first
      | exact absurd rfl hne
      | simp [populateObjectiveFuncBlock, hs1, exceptOk_ok, exceptOk_error,
          apply_ite (@exceptOk FExpr), ite_self]

/-- Witness for the error characterization: the unknown objective
"zzz" errors with the not-implemented message, binary with parameter 2
succeeds, binary with parameter -1 fails, and gamma always succeeds. -/
theorem objective_error_characterization_witness :
    populateObjectiveFuncBlock "zzz" "" = Except.error (notImplMsg "zzz")
    ∧ exceptOk (populateObjectiveFuncBlock "binary" "sigmoid:2") = true
    ∧ exceptOk (populateObjectiveFuncBlock "binary" "sigmoid:-1") = false
    ∧ exceptOk (populateObjectiveFuncBlock "gamma" "") = true := by
  refine ⟨(objective_error_characterization "zzz" "" 0).1 (by decide), ?_, ?_, ?_⟩
  · have h := (objective_error_characterization "zzz" "sigmoid:2" 2).2.1 (by decide)
    simpa using h
  · have h := (objective_error_characterization "zzz" "sigmoid:-1" (-1)).2.1 (by decide)
    simpa using h
  · exact (objective_error_characterization "gamma" "" 0).2.2 (by decide) (by decide)

/-- Mirror of `Feature`: codegen only reads `is_categorical`. -/
structure FeatureModel where
  is_categorical : Bool
deriving DecidableEq

/-- Mirror of `Tree` of nodes.py: index, root node, the forest's feature list and
the class id (unused by codegen). -/
structure TreeModel where
  idx : ℕ
  root_node : TNode
  features : List FeatureModel
  class_id : ℕ
deriving DecidableEq

/-- Mirror of `Forest` of nodes.py. -/
structure ForestModel where
  trees : List TreeModel
  features : List FeatureModel
  n_classes : ℕ
  objective_func : String
  objective_func_config : String
deriving DecidableEq

/-- Mirror of `Forest.n_args`. -/
def ForestModel.n_args (F : ForestModel) : ℕ := F.features.length

/-- An emitted tree function: its name `tree_<idx>`, its per-argument
types (true = INT_CAT, false = DOUBLE, mirroring the feature list) and
its body IR. -/
structure TreeIR where
  name : String
  argIsCat : List Bool
  body : NodeIR
deriving DecidableEq

/-- The emitted module: the tree functions in `Forest.trees` order, the
per-feature categorical flags driving forest_root's fptosi casts, the
number of arguments, and the objective post-transform expression. -/
structure ModuleIR where
  treeFns : List TreeIR
  rootFeatureCats : List Bool
  nArgs : ℕ
  objective : FExpr
deriving DecidableEq

/-- Mirror of `make_tree` of `gen_forest`: declare `tree_<idx>` with INT_CAT
arguments for categorical features and DOUBLE otherwise, and generate
the body from the root node. -/
def makeTree (t : TreeModel) : TreeIR :=
  { name := "tree_" ++ toString t.idx
  , argIsCat := t.features.map (fun f => f.is_categorical)
  , body := genTreeNode t.root_node }

/-- The part of a tree read by `make_tree` (everything except
`class_id`). -/
def treeStrip (t : TreeModel) : ℕ × TNode × List FeatureModel :=
  (t.idx, t.root_node, t.features)

/-- The function `makeTree` factored through `treeStrip`. -/
def makeTreeOfStrip (s : ℕ × TNode × List FeatureModel) : TreeIR :=
  { name := "tree_" ++ toString s.1
  , argIsCat := s.2.2.map (fun f => f.is_categorical)
  , body := genTreeNode s.2.1 }

/-- Shallow embedding of `gen_forest` (codegen.py lines 27-70) plus
`_populate_forest_func`'s objective lowering: emits one tree function
per tree in order and the forest_root structure; the only failure is
the objective lowering. -/
def genForest (F : ForestModel) : Except String ModuleIR :=
  match populateObjectiveFuncBlock F.objective_func F.objective_func_config with
  | .error e => Except.error e
  | .ok obj => Except.ok
    { treeFns := F.trees.map makeTree
    , rootFeatureCats := F.features.map (fun f => f.is_categorical)
    , nArgs := F.features.length
    , objective := obj }

/-- The argument list forest_root builds for row `i`: load the
`nArgs` doubles at offset `i * nArgs`, fptosi-casting the categorical
ones (codegen.py lines 158-172). -/
def rowArgs (m : ModuleIR) (data : ℤ → FP) (i : ℤ) : List ArgVal :=
  (List.range m.nArgs).map (fun k =>
    let el := data (i * (m.nArgs : ℤ) + Int.ofNat k)
    if m.rootFeatureCats.getD k false then ArgVal.cat el.fptosi32 else ArgVal.d el)

/-- The accumulator: call the first tree, then fadd each further tree's
result onto it in order (`res = fadd(tree_res, res)`, codegen.py lines
173-178). -/
def treeCallSum (m : ModuleIR) (args : List ArgVal) : ℚ :=
  match m.treeFns with
  | [] => 0
  | t :: ts => ts.foldl (fun res f => evalNodeIR args f.body + res) (evalNodeIR args t.body)

/-- The value stored into out[i] for row i: the objective post-transform
applied to the accumulated tree sum of the row's arguments. -/
def rowScore (m : ModuleIR) (expF logF : ℚ → ℚ) (data : ℤ → FP) (i : ℤ) : ℚ :=
  FExpr.eval expF logF (treeCallSum m (rowArgs m data i)) m.objective

/-- The forest_root loop (codegen.py lines 139-191): while the signed
counter is < end, score the row, store into out[i], increment. -/
def forestRootLoop (m : ModuleIR) (expF logF : ℚ → ℚ) (data : ℤ → FP)
    (out : ℤ → ℚ) (i endI : ℤ) : ℤ → ℚ :=
  if i < endI then
    forestRootLoop m expF logF data
      (fun j => if j = i then rowScore m expF logF data i else out j) (i + 1) endI
  else out
termination_by (endI - i).toNat
decreasing_by
  simp_wf
  omega

/-- Mirror of `forest_root(data, out, start, end)`: run the loop from `start`. -/
def forestRoot (m : ModuleIR) (expF logF : ℚ → ℚ) (data : ℤ → FP)
    (out : ℤ → ℚ) (start endI : ℤ) : ℤ → ℚ :=
  forestRootLoop m expF logF data out start endI

/-- Pointwise description of the loop: cell j holds the row score if
the loop range covers j, else the incoming value. -/
theorem forestRootLoop_apply (m : ModuleIR) (eF lF : ℚ → ℚ) (data : ℤ → FP)
    (endI j : ℤ) :
    ∀ (n : ℕ) (i : ℤ), (endI - i).toNat = n → ∀ (out : ℤ → ℚ),
      forestRootLoop m eF lF data out i endI j =
        if i ≤ j ∧ j < endI then rowScore m eF lF data j else out j := by
  intro n
  induction n using Nat.strong_induction_on with
  | _ n ih =>
    intro i hn out
    rw [forestRootLoop]
    split
    · rename_i h
      rw [ih ((endI - (i + 1)).toNat) (by omega) (i + 1) rfl]
      by_cases hj : j = i
      · subst hj
        have h1 : ¬(j + 1 ≤ j ∧ j < endI) := by omega
        have h2 : j ≤ j ∧ j < endI := by omega
        simp [h1, h2]
      · have h3 : (i + 1 ≤ j ∧ j < endI) ↔ (i ≤ j ∧ j < endI) := by omega
        simp [hj, h3]
    · rename_i h
      have h4 : ¬(i ≤ j ∧ j < endI) := by omega
      simp [h4]

/-- C4: for every row index i with start <= i < end, forest_root
stores into out[i] the objective transform of the fadd-accumulated
tree-call results over the row's gathered (and categorically cast)
arguments, the trees being called in `Forest.trees` order starting with
the first (`treeCallSum` folds tree_0's result through the remaining
trees in order; `rowArgs` loads at offset i * n_features and
fptosi-casts the categorical features). -/
theorem forest_root_row_semantics (m : ModuleIR) (eF lF : ℚ → ℚ) (data : ℤ → FP)
    (out : ℤ → ℚ) (start endI i : ℤ) (h1 : start ≤ i) (h2 : i < endI) :
    forestRoot m eF lF data out start endI i =
      FExpr.eval eF lF (treeCallSum m (rowArgs m data i)) m.objective := by
  rw [forestRoot,
    forestRootLoop_apply m eF lF data endI i ((endI - start).toNat) start rfl out]
  simp [rowScore, h1, h2]

/-- A two-tree demo module: tree_0 returns 1, tree_1 returns 2,
identity objective, one numerical feature. -/
def demoModule : ModuleIR :=
  { treeFns :=
      [ { name := "tree_0", argIsCat := [false], body := NodeIR.retLeaf 1 }
      , { name := "tree_1", argIsCat := [false], body := NodeIR.retLeaf 2 } ]
  , rootFeatureCats := [false]
  , nArgs := 1
  , objective := FExpr.x }

/-- Witness: on the demo module, row 0 of a single-row batch receives
the summed tree outputs 1 + 2 = 3. -/
theorem forest_root_row_semantics_witness :
    forestRoot demoModule (fun q => q) (fun q => q) (fun _ => fpZero)
      (fun _ => 0) 0 1 0 = 3 := by
  rw [forest_root_row_semantics demoModule (fun q => q) (fun q => q)
    (fun _ => fpZero) (fun _ => 0) 0 1 0 (le_refl 0) (by norm_num)]
  norm_num [demoModule, treeCallSum, evalNodeIR, FExpr.eval]

/-- C8: forest_root writes only out[start..end): any index outside the
range keeps its incoming value (and the data buffer is read-only in this
semantics); and scoring [start, mid) then [mid, end) on the resulting
buffer equals scoring [start, end) in one call. -/
theorem forest_root_frame_and_batching (m : ModuleIR) (eF lF : ℚ → ℚ)
    (data : ℤ → FP) (out : ℤ → ℚ) (start mid endI j : ℤ) :
    ((j < start ∨ endI ≤ j) → forestRoot m eF lF data out start endI j = out j)
    ∧ (start ≤ mid → mid ≤ endI →
      forestRoot m eF lF data (forestRoot m eF lF data out start mid) mid endI =
        forestRoot m eF lF data out start endI) := by
  constructor
  · intro hj
    rw [forestRoot,
      forestRootLoop_apply m eF lF data endI j ((endI - start).toNat) start rfl out]
    have h4 : ¬(start ≤ j ∧ j < endI) := by omega
    simp [h4]
  · intro h1 h2
    funext j2
    rw [forestRoot, forestRoot, forestRoot,
      forestRootLoop_apply m eF lF data endI j2 ((endI - mid).toNat) mid rfl,
      forestRootLoop_apply m eF lF data mid j2 ((mid - start).toNat) start rfl out,
      forestRootLoop_apply m eF lF data endI j2 ((endI - start).toNat) start rfl out]
    by_cases hA : mid ≤ j2 ∧ j2 < endI
    · have hB : start ≤ j2 ∧ j2 < endI := by omega
      simp [hA, hB]
    · by_cases hC : start ≤ j2 ∧ j2 < mid
      · have hB : start ≤ j2 ∧ j2 < endI := by omega
        simp [hA, hB, hC]
      · have hB : ¬(start ≤ j2 ∧ j2 < endI) := by omega
        simp [hA, hB, hC]

/-- Witness for the frame and batching properties on the demo module:
index 5 outside [0, 1) is untouched, and scoring [0,1) then [1,2)
equals scoring [0,2). -/
theorem forest_root_frame_and_batching_witness :
    forestRoot demoModule (fun q => q) (fun q => q) (fun _ => fpZero)
        (fun _ => 0) 0 1 5 = 0
    ∧ forestRoot demoModule (fun q => q) (fun q => q) (fun _ => fpZero)
        (forestRoot demoModule (fun q => q) (fun q => q) (fun _ => fpZero)
          (fun _ => 0) 0 1) 1 2 =
      forestRoot demoModule (fun q => q) (fun q => q) (fun _ => fpZero)
        (fun _ => 0) 0 2 := by
  constructor
  · exact (forest_root_frame_and_batching demoModule (fun q => q) (fun q => q)
      (fun _ => fpZero) (fun _ => 0) 0 1 1 5).1 (by norm_num)
  · exact (forest_root_frame_and_batching demoModule (fun q => q) (fun q => q)
      (fun _ => fpZero) (fun _ => 0) 0 1 2 0).2 (by norm_num) (by norm_num)

/-- C10: codegen never reads n_classes or class_id. Two forests that
agree on everything else produce identical modules; a forest compiles
successfully exactly when its objective lowering does (so any
n_classes > 1 with a valid objective compiles); and every emitted
module contains one tree function per tree of the forest, all of which
forest_root sums into the single per-row scalar. -/
theorem genforest_class_structure_independence (F1 F2 : ForestModel)
    (htrees : F1.trees.map treeStrip = F2.trees.map treeStrip)
    (hfeat : F1.features = F2.features)
    (hobj : F1.objective_func = F2.objective_func)
    (hcfg : F1.objective_func_config = F2.objective_func_config) :
    genForest F1 = genForest F2
    ∧ exceptOk (genForest F1) =
        exceptOk (populateObjectiveFuncBlock F1.objective_func F1.objective_func_config)
    ∧ Except.map (fun mm => mm.treeFns.length) (genForest F1) =
        Except.map (fun _ => F1.trees.length) (genForest F1) := by
  have hmk : ∀ (l : List TreeModel),
      l.map makeTree = (l.map treeStrip).map makeTreeOfStrip := by
    intro l
    rw [List.map_map]
    rfl
  refine ⟨?_, ?_, ?_⟩
  · rw [genForest, genForest, hobj, hcfg, hfeat, hmk F1.trees, hmk F2.trees, htrees]
  · rw [genForest]
    cases h : populateObjectiveFuncBlock F1.objective_func F1.objective_func_config <;>
      rfl
  · rw [genForest]
    cases h : populateObjectiveFuncBlock F1.objective_func F1.objective_func_config <;>
      simp [Except.map]

/-- Two one-tree demo forests differing only in n_classes and the
tree's class_id. -/
def demoForestA : ForestModel :=
  { trees := [{ idx := 0, root_node := TNode.leaf 1, features := [⟨false⟩], class_id := 0 }]
  , features := [⟨false⟩]
  , n_classes := 1
  , objective_func := "regression"
  , objective_func_config := "" }

/-- Same forest with n_classes = 3 and a different class_id. -/
def demoForestB : ForestModel :=
  { trees := [{ idx := 0, root_node := TNode.leaf 1, features := [⟨false⟩], class_id := 2 }]
  , features := [⟨false⟩]
  , n_classes := 3
  , objective_func := "regression"
  , objective_func_config := "" }

/-- Witness: the two demo forests emit identical modules, the
multiclass one compiles successfully, and its module has one tree
function per tree. -/
theorem genforest_class_structure_independence_witness :
    genForest demoForestB = genForest demoForestA
    ∧ exceptOk (genForest demoForestB) =
        exceptOk (populateObjectiveFuncBlock "regression" "")
    ∧ Except.map (fun mm => mm.treeFns.length) (genForest demoForestB) =
        Except.map (fun _ => demoForestB.trees.length) (genForest demoForestB) := by
  have h := genforest_class_structure_independence demoForestB demoForestA
    (by decide) (by decide) (by decide) (by decide)
  exact ⟨h.1, h.2.1, h.2.2⟩

/-- Mirror of `DecisionNode` of nodes.py as validated: decision-type flags,
threshold and optional categorical bitset. -/
structure DecisionNodeModel where
  idx : ℕ
  split_feature : ℕ
  threshold : FP
  decision_type : DecisionType
  cat_threshold : Option (List ℕ)
deriving DecidableEq

/-- Mirror of `DecisionNode.validate` (nodes.py lines 69-73): a categorical node
asserts the bitset is present; a numerical node asserts
`self.threshold`, i.e. Python truthiness of the float. -/
def DecisionNodeModel.validate (n : DecisionNodeModel) : Bool :=
  if n.decision_type.is_categorical then n.cat_threshold.isSome
  else pyTruthy n.threshold

/-- A non-categorical node whose threshold is NaN. -/
def nanThresholdNode : DecisionNodeModel :=
  { idx := 0
  , split_feature := 0
  , threshold := FP.NaN
  , decision_type :=
      { is_categorical := false, is_default_left := false, missing_type := MissingType.MNaN }
  , cat_threshold := none }

/-- C9 counterexample: the claim says a non-categorical node passing
validate() has a non-zero *finite* threshold, but `assert
self.threshold` only tests Python truthiness: NaN is truthy, so this
non-categorical NaN-threshold node passes validation while its
threshold is not finite. -/
theorem validate_passes_nan_threshold :
    nanThresholdNode.decision_type.is_categorical = false
    ∧ DecisionNodeModel.validate nanThresholdNode = true
    ∧ FP.isFinite nanThresholdNode.threshold = false := by
  exact ⟨rfl, rfl, rfl⟩

/-- C9 as amended: a non-categorical node passing validate() has a
threshold that is not (numerically) zero — zero is rejected as unset —
but validation does not ensure finiteness. -/
theorem validate_rejects_zero_threshold (n : DecisionNodeModel)
    (hcat : n.decision_type.is_categorical = false)
    (hval : DecisionNodeModel.validate n = true) :
    FP.isZero n.threshold = false := by
  rw [DecisionNodeModel.validate, hcat] at hval
  simp only [Bool.false_eq_true, if_false] at hval
  cases hth : n.threshold with
  | NaN => rfl
  | inf b => rfl
  | fin x b =>
    rw [hth] at hval
    simp only [pyTruthy, decide_eq_true_eq] at hval
    simp [FP.isZero, hval]

/-- Witness: a threshold of 0.5 passes validation and is nonzero. -/
theorem validate_rejects_zero_threshold_witness :
    FP.isZero (FP.fin (1 / 2) false) = false := by
  exact validate_rejects_zero_threshold
    { idx := 0, split_feature := 0, threshold := FP.fin (1 / 2) false
    , decision_type :=
        { is_categorical := false, is_default_left := true, missing_type := MissingType.MNaN }
    , cat_threshold := none }
    rfl (by norm_num [DecisionNodeModel.validate, pyTruthy])
